import Mathlib

/-!
Shallow embedding of the persistence and synchronization layer of the
project-manager repository, together with theorems settling the frozen
claims about it.

The embedding covers:
* the `/api/data` route handlers (`GET`, `POST`) over a key-value store;
* the client persistence helpers of the first page variant
  (`loadLocal`/`saveLocal`, `saveToApi`/`loadFromApi`, the mount-time
  `load` reconciliation, the debounced save, and the task/project CRUD
  functions `addTask`, `addProject`, `softDeleteTask`, `restoreTask`);
* the status-change and edit-form save handlers of the second page
  variant (`handleStatusChange`, the `TaskModal` `handleSubmit`).

JavaScript dynamic values are embedded explicitly: an optional / possibly
`undefined` field becomes an `Option`, and `a || b` on such a field
becomes `jsOrList` (an array operand, even an empty one, is truthy in
JavaScript, while `undefined`/`null` are falsy).
-/

namespace PM

/-! ### Decimal rendering of a JavaScript integer timestamp

`Date.now().toString()` renders the millisecond timestamp in decimal.
`natToString` embeds that rendering: little-endian digit extraction with
structural fuel (so that it evaluates by `decide`/`rfl`), reversed into
most-significant-first order, each digit mapped to its ASCII character. -/

/-- ASCII digit character for `d` (JS digits `0`–`9` map to `'0'`–`'9'`). -/
def digitCh (d : Nat) : Char := Char.ofNat (48 + d)

/-- Little-endian decimal digits of `n`, with `fuel` bounding recursion depth.
`fuel ≥ n` suffices. `n = 0` yields `[]`. -/
def natDigitsRevGo : Nat → Nat → List Nat
  | 0, _ => []
  | _ + 1, 0 => []
  | fuel + 1, n + 1 => (n + 1) % 10 :: natDigitsRevGo fuel ((n + 1) / 10)

/-- Little-endian decimal digits of `n` (`0` yields `[]`). -/
def natDigitsRev (n : Nat) : List Nat := natDigitsRevGo n n

/-- Decimal string of a natural number, as `Number.prototype.toString`
produces it for a non-negative integer. -/
def natToString (n : Nat) : String :=
  if n = 0 then "0" else ((natDigitsRev n).reverse.map digitCh).asString

/-- Value of a little-endian digit list. -/
def ofDigitsRev : List Nat → Nat
  | [] => 0
  | d :: ds => d + 10 * ofDigitsRev ds

/-! ### Shared enumerations (identical in both page variants) -/

/-- `type TaskStatus = 'backlog' | 'todo' | 'in_progress' | 'review' | 'done'` -/
inductive TaskStatus where
  | backlog | todo | in_progress | review | done
deriving DecidableEq, Repr

/-- `type Priority = 'low' | 'medium' | 'high' | 'urgent'` -/
inductive Priority where
  | low | medium | high | urgent
deriving DecidableEq, Repr

/-- `type ProjectStatus = 'live' | 'building' | 'planned' | 'offline'` -/
inductive ProjectStatus where
  | live | building | planned | offline
deriving DecidableEq, Repr

/-- Sync indicator union of the first page variant:
`'idle' | 'syncing' | 'saved' | 'error'`. -/
inductive SyncStatus where
  | idle | syncing | saved | error
deriving DecidableEq, Repr

/-- JavaScript `a || b` where `a` is an optional array field: `undefined` and
`null` are falsy, while an array operand (even `[]`) is truthy. -/
def jsOrList {α : Type} (a : Option (List α)) (b : List α) : List α :=
  match a with
  | none => b
  | some l => l

/-- JavaScript `s || null` on a string state field: `''` is falsy. -/
def strOrNone (s : String) : Option String :=
  if s = "" then none else some s

/-- JavaScript `String.prototype.trim`: strip whitespace from both ends
(structural on the character list, so it evaluates inside the kernel). -/
def jsTrim (s : String) : String :=
  (((s.toList.dropWhile Char.isWhitespace).reverse.dropWhile Char.isWhitespace).reverse).asString

/-! ### First page variant (the persistence-owning component)

Data model of the `src/unnamed/part_000` persistence variant:
`Task` has no `updatedAt`/`completedAt`; `DeletedTask extends Task` adds
`deletedAt`; `Project` carries the portfolio fields. -/

namespace Part000

structure Task where
  id : String
  title : String
  description : String
  status : TaskStatus
  priority : Priority
  assignee : Option String
  dueDate : Option String
  tags : List String
  createdAt : String
  projectId : Option String
deriving DecidableEq, Repr

structure DeletedTask extends Task where
  deletedAt : String
deriving DecidableEq, Repr

structure Project where
  id : String
  name : String
  description : String
  url : String
  status : ProjectStatus
  category : String
  techStack : String
  owner : String
  designScore : Int
  createdAt : String
deriving DecidableEq, Repr

/-- `const MAX_DELETED = 20` -/
def MAX_DELETED : Nat := 20

/-- The in-memory document: the `tasks`, `projects` and `deletedTasks`
React state of the component. -/
structure AppState where
  tasks : List Task
  projects : List Project
  deletedTasks : List DeletedTask
deriving DecidableEq, Repr

/-- Environment of one mutation call: `Date.now()` (millisecond timestamp)
and `new Date().toISOString().split('T')[0]` (the date string). -/
structure Env where
  nowMs : Nat
  today : String
deriving DecidableEq, Repr

/-- The `newTask` form state consumed by `addTask` (string-typed fields use
`''` as the unset sentinel, as in the component state). -/
structure NewTaskInput where
  title : String
  description : String
  priority : Priority
  assignee : String
  status : TaskStatus
  dueDate : String
  projectId : String
deriving DecidableEq, Repr

/-- The task record `addTask` builds:
`id = Date.now().toString()`, `createdAt` = today's date string, `tags = []`,
`assignee/dueDate/projectId` collapse `''` to absent. -/
def mkNewTask (env : Env) (input : NewTaskInput) : Task :=
  { id := natToString env.nowMs
    title := input.title
    description := input.description
    status := input.status
    priority := input.priority
    assignee := strOrNone input.assignee
    dueDate := strOrNone input.dueDate
    tags := []
    createdAt := env.today
    projectId := strOrNone input.projectId }

/-- `addTask`: refuse silently when the trimmed title is empty, otherwise
prepend the freshly built task (`persistTasks([task, ...tasks])`). -/
def addTask (st : AppState) (env : Env) (input : NewTaskInput) : AppState :=
  if jsTrim input.title = "" then st
  else { st with tasks := mkNewTask env input :: st.tasks }

/-- The `newProject` form state consumed by `addProject`. -/
structure NewProjectInput where
  name : String
  description : String
  url : String
  status : ProjectStatus
  category : String
  techStack : String
  owner : String
  designScore : Int
deriving DecidableEq, Repr

/-- The project record `addProject` builds:
`{ ...newProject, id: Date.now().toString(), createdAt: today }`. -/
def mkNewProject (env : Env) (input : NewProjectInput) : Project :=
  { id := natToString env.nowMs
    name := input.name
    description := input.description
    url := input.url
    status := input.status
    category := input.category
    techStack := input.techStack
    owner := input.owner
    designScore := input.designScore
    createdAt := env.today }

/-- `addProject`: refuse silently when the trimmed name is empty, otherwise
prepend (`persistProjects([project, ...projects])`). -/
def addProject (st : AppState) (env : Env) (input : NewProjectInput) : AppState :=
  if jsTrim input.name = "" then st
  else { st with projects := mkNewProject env input :: st.projects }

/-- `softDeleteTask(id)`: find the task; if absent do nothing; otherwise
prepend `{ ...task, deletedAt: now }` to the trash, truncate the trash to
`MAX_DELETED`, and remove the task from the live collection. -/
def softDeleteTask (st : AppState) (now : String) (id : String) : AppState :=
  match st.tasks.find? (fun t => t.id == id) with
  | none => st
  | some task =>
      let deleted : DeletedTask := { toTask := task, deletedAt := now }
      let newDeleted := (deleted :: st.deletedTasks).take MAX_DELETED
      { st with
        tasks := st.tasks.filter (fun t => !(t.id == id))
        deletedTasks := newDeleted }

/-- `restoreTask(id)`: find the trash entry; if absent do nothing; otherwise
strip `deletedAt`, prepend the restored record to the live collection, and
drop every trash entry with that id (`deletedTasks.filter(t => t.id !== id)`). -/
def restoreTask (st : AppState) (id : String) : AppState :=
  match st.deletedTasks.find? (fun t => t.id == id) with
  | none => st
  | some d =>
      { st with
        tasks := d.toTask :: st.tasks
        deletedTasks := st.deletedTasks.filter (fun t => !(t.id == id)) }

/-- Sequential soft deletion, one `softDeleteTask` call per id (all calls in
one burst share the same `new Date().toISOString()` only up to the embedding;
the timestamp does not influence membership or capacity). -/
def softDeleteSeq (st : AppState) (now : String) (ids : List String) : AppState :=
  ids.foldl (fun s i => softDeleteTask s now i) st

/-- The trash record a deletion of id `i` from state `st` produces, if `i`
names a live task. -/
def delRecord (st : AppState) (now : String) (i : String) : Option DeletedTask :=
  (st.tasks.find? (fun t => t.id == i)).map (fun t => { toTask := t, deletedAt := now })

/-- A create operation of the Mutation API: `addTask` or `addProject`,
together with the environment of the call. -/
inductive CreateOp where
  | task (env : Env) (input : NewTaskInput)
  | project (env : Env) (input : NewProjectInput)

/-- Millisecond timestamp of a create operation. -/
def CreateOp.time : CreateOp → Nat
  | .task env _ => env.nowMs
  | .project env _ => env.nowMs

/-- Apply one create operation. -/
def applyCreate (st : AppState) : CreateOp → AppState
  | .task env input => addTask st env input
  | .project env input => addProject st env input

/-- Apply a sequence of create operations in order. -/
def applyCreates (st : AppState) (ops : List CreateOp) : AppState :=
  ops.foldl applyCreate st

/-- The empty starting document (no tasks, no projects, empty trash). -/
def emptyState : AppState := { tasks := [], projects := [], deletedTasks := [] }

end Part000

/-! ### The `/api/data` route handlers (`src/app/api/data/route.ts`)

The wire document is whatever JSON the client posted; the route reads only
`body.tasks` and `body.projects` and stores
`{ tasks: body.tasks || [], projects: body.projects || [], lastUpdated }`
under one key. The embedding types the wire collections with the client's
record types (the route itself never inspects the elements). -/

namespace DataRoute

open Part000

/-- The value stored in the `kv_store` row for `project-manager-data`:
only `tasks`, `projects` and `lastUpdated` — `POST` never writes a
`deletedTasks` field. -/
structure StoredValue where
  tasks : List Task
  projects : List Project
  lastUpdated : String
deriving DecidableEq, Repr

/-- The key-value store behind the route (the single document row). -/
structure KvStore where
  value : Option StoredValue
deriving DecidableEq, Repr

/-- A `POST /api/data` body as the client sends it (`saveToApi`):
optional `tasks`, `projects`, `deletedTasks` fields. -/
structure PostBody where
  tasks : Option (List Task)
  projects : Option (List Project)
  deletedTasks : Option (List DeletedTask)
deriving DecidableEq, Repr

/-- The JSON a `POST /api/data` returns. -/
structure PostResponse where
  success : Bool
  lastUpdated : Option String
  source : String
deriving DecidableEq, Repr

/-- The JSON a `GET /api/data` returns. `deletedTasks` is an `Option`
because the handler never includes that field in any branch. -/
structure GetResponse where
  tasks : List Task
  projects : List Project
  deletedTasks : Option (List DeletedTask)
  lastUpdated : Option String
  source : String
deriving DecidableEq, Repr

/-- `POST /api/data`: with no database configured, fail with `no-db`; with a
failing upsert, fail with `error`; otherwise overwrite the document with
`{ tasks: body.tasks || [], projects: body.projects || [], lastUpdated: now }`
and answer `{ success: true, lastUpdated: now }`. -/
def postRoute (hasDb upsertOk : Bool) (store : KvStore) (body : PostBody) (now : String) :
    KvStore × PostResponse :=
  if !hasDb then
    (store, { success := false, lastUpdated := none, source := "no-db" })
  else if !upsertOk then
    (store, { success := false, lastUpdated := none, source := "error" })
  else
    ({ value := some { tasks := jsOrList body.tasks []
                       projects := jsOrList body.projects []
                       lastUpdated := now } },
     { success := true, lastUpdated := some now, source := "supabase" })

/-- `GET /api/data`: `no-db` without a database; `empty` without a stored
document; otherwise the stored `tasks`/`projects`/`lastUpdated` with source
`supabase`. No branch produces a `deletedTasks` field. -/
def getRoute (hasDb : Bool) (store : KvStore) : GetResponse :=
  if !hasDb then
    { tasks := [], projects := [], deletedTasks := none, lastUpdated := none, source := "no-db" }
  else
    match store.value with
    | some v =>
        { tasks := v.tasks, projects := v.projects, deletedTasks := none
          lastUpdated := some v.lastUpdated, source := "supabase" }
    | none =>
        { tasks := [], projects := [], deletedTasks := none, lastUpdated := none, source := "empty" }

end DataRoute

/-! ### Client persistence of the first page variant -/

namespace Part000

/-- The collections `loadFromApi` hands back on success (after its
`data.deletedTasks || []` coercion). -/
structure ApiData where
  tasks : List Task
  projects : List Project
  deletedTasks : List DeletedTask
deriving DecidableEq, Repr

/-- `loadFromApi()`: `null` when the fetch threw or `res.ok` was false;
`null` unless `data.source === 'supabase'` and at least one of
`data.tasks`/`data.projects` is non-empty; otherwise the three collections,
with a missing `deletedTasks` coerced to `[]`. -/
def loadFromApi (fetchOk : Bool) (resp : DataRoute.GetResponse) : Option ApiData :=
  if !fetchOk then none
  else if resp.source == "supabase"
      && (decide (0 < resp.tasks.length) || decide (0 < resp.projects.length)) then
    some { tasks := resp.tasks
           projects := resp.projects
           deletedTasks := jsOrList resp.deletedTasks [] }
  else none

/-- Everything the mount-time `load` effect decides: the three state
collections, the cache writes it performs (`none` = that key not written),
the seeding `saveToApi` payload when no API data was usable, and the final
sync status. -/
structure LoadOutcome where
  tasks : List Task
  projects : List Project
  deletedTasks : List DeletedTask
  cacheWriteTasks : Option (List Task)
  cacheWriteProjects : Option (List Project)
  cacheWriteDeleted : Option (List DeletedTask)
  seedPost : Option (List Task × List Project × List DeletedTask)
  syncStatus : SyncStatus
deriving DecidableEq, Repr

/-- The mount-time `load` effect, after the synchronous cache reads
(`localT`, `localP`, `localD` are the `loadLocal` results). With usable API
data each field-group is chosen as the code chooses it — projects and tasks
by `length > 0`, the trash by `apiData.deletedTasks || localD` — and the
same chosen values are written back to the cache. Without usable API data
the local snapshot stands and is pushed to the API. -/
def loadMount (localT : List Task) (localP : List Project) (localD : List DeletedTask)
    (api : Option ApiData) : LoadOutcome :=
  match api with
  | some a =>
      let chosenP := if 0 < a.projects.length then a.projects else localP
      let chosenT := if 0 < a.tasks.length then a.tasks else localT
      let chosenD := jsOrList (some a.deletedTasks) localD
      { tasks := chosenT, projects := chosenP, deletedTasks := chosenD
        cacheWriteTasks := some chosenT
        cacheWriteProjects := some chosenP
        cacheWriteDeleted := some chosenD
        seedPost := none
        syncStatus := SyncStatus.saved }
  | none =>
      { tasks := localT, projects := localP, deletedTasks := localD
        cacheWriteTasks := none, cacheWriteProjects := none, cacheWriteDeleted := none
        seedPost := some (localT, localP, localD)
        syncStatus := SyncStatus.saved }

/-- One snapshot handed to `debouncedSave(t, p, d?)`. -/
structure Snapshot where
  tasks : List Task
  projects : List Project
  deleted : Option (List DeletedTask)
deriving DecidableEq, Repr

/-- The sync coordinator state the debounced-save path touches: the cache
keys, the single pending timer slot, the list of POST payloads issued so
far (in order), and the sync status. -/
structure Coordinator where
  cacheTasks : Option (List Task)
  cacheProjects : Option (List Project)
  cacheDeleted : Option (List DeletedTask)
  pending : Option Snapshot
  posted : List Snapshot
  syncStatus : SyncStatus
deriving DecidableEq, Repr

/-- `debouncedSave(t, p, d?)`: write the cache keys synchronously (the trash
key only when `d` was passed), clear any pending timer, and schedule a new
timer carrying exactly this snapshot. -/
def debouncedSave (c : Coordinator) (s : Snapshot) : Coordinator :=
  { c with
    cacheTasks := some s.tasks
    cacheProjects := some s.projects
    cacheDeleted := match s.deleted with
      | some d => some d
      | none => c.cacheDeleted
    pending := some s }

/-- The debounce timer firing: POST the pending snapshot (`saveToApi` swallows
any failure), then set the status to `saved`. A fire with no pending snapshot
changes nothing. -/
def fireTimer (c : Coordinator) : Coordinator :=
  match c.pending with
  | none => c
  | some s =>
      { c with pending := none, posted := c.posted ++ [s], syncStatus := SyncStatus.saved }

/-- A burst of mutations: each one routes its snapshot through
`debouncedSave`, re-scheduling the single timer slot. -/
def saveBurst (c : Coordinator) (snaps : List Snapshot) : Coordinator :=
  snaps.foldl debouncedSave c

/-- `saveToApi(tasks, projects, deleted)`: POST the whole snapshot; on a
successful request the remote document is replaced, and a failed request is
caught and logged, leaving the remote document as it was. The call never
throws and returns nothing either way. -/
def saveToApi (postOk : Bool) (remote : Option DataRoute.StoredValue)
    (tasks : List Task) (projects : List Project) (lastUpdated : String) :
    Option DataRoute.StoredValue :=
  if postOk then some { tasks := tasks, projects := projects, lastUpdated := lastUpdated }
  else remote

/-- The full client-side picture the debounce timer body acts on: the
in-memory collections, the cache, the remote document and the sync status. -/
structure ClientWorld where
  tasks : List Task
  projects : List Project
  deletedTasks : List DeletedTask
  cacheTasks : Option (List Task)
  cacheProjects : Option (List Project)
  cacheDeleted : Option (List DeletedTask)
  remote : Option DataRoute.StoredValue
  syncStatus : SyncStatus
deriving DecidableEq, Repr

/-- The body of the debounce timer in the first variant:
`setSyncStatus('syncing'); await saveToApi(t, p, d); setSyncStatus('saved')`.
`saveToApi` swallows its own failure, so the status ends at `saved` whether
or not the POST succeeded, and nothing else of the client is touched. -/
def debounceTimerBody (postOk : Bool) (w : ClientWorld) (now : String) : ClientWorld :=
  { w with
    remote := saveToApi postOk w.remote w.tasks w.projects now
    syncStatus := SyncStatus.saved }

/-- A device store for `localStorage`-style keys. -/
structure DeviceStore where
  entries : List (String × String)
deriving DecidableEq, Repr

/-- `localStorage.setItem` semantics on the embedded store. -/
def DeviceStore.setItem (s : DeviceStore) (key val : String) : DeviceStore :=
  { entries := (key, val) :: s.entries.filter (fun e => !(e.1 == key)) }

/-- `saveLocal(key, data)`: return without doing anything when `window` is
absent; otherwise call `localStorage.setItem(key, JSON.stringify(data))`
directly — the function body has no `try`/`catch`, so when the underlying
`setItem` throws (e.g. quota exceeded) the exception propagates to the
caller, which the `Except.error` result captures. -/
def saveLocal (hasWindow setItemOk : Bool) (store : DeviceStore) (key val : String) :
    Except Unit DeviceStore :=
  if !hasWindow then Except.ok store
  else if setItemOk then Except.ok (store.setItem key val)
  else Except.error ()

end Part000

/-! ### Second page variant (`src/unnamed/part_001`): status handlers -/

namespace Part001

/-- The task record of the second variant: it adds `updatedAt`,
`completedAt` and a nullable `projectId`. -/
structure Task where
  id : String
  title : String
  description : String
  status : TaskStatus
  priority : Priority
  assignee : Option String
  dueDate : Option String
  tags : List String
  createdAt : String
  updatedAt : String
  completedAt : Option String
  projectId : Option String
deriving DecidableEq, Repr

/-- The per-task update inside `handleStatusChange(id, status)`:
`completedAt` becomes the fresh timestamp on a transition into `done` with
`completedAt` unset, is cleared on any transition to a non-`done` status,
and is otherwise kept. -/
def statusChangeStep (now : String) (id : String) (status : TaskStatus) (t : Task) : Task :=
  if t.id == id then
    { t with
      status := status
      updatedAt := now
      completedAt :=
        if status == TaskStatus.done && t.completedAt.isNone then some now
        else if status != TaskStatus.done then none
        else t.completedAt }
  else t

/-- `handleStatusChange(id, status)` maps the step over the collection. -/
def handleStatusChange (tasks : List Task) (now : String) (id : String)
    (status : TaskStatus) : List Task :=
  tasks.map (statusChangeStep now id status)

/-- The `TaskModal` form state (`formData`) at submit time. -/
structure TaskForm where
  title : String
  description : String
  status : TaskStatus
  priority : Priority
  assignee : Option String
  dueDate : Option String
  tags : List String
  projectId : Option String
deriving DecidableEq, Repr

/-- The `savedTask` the `TaskModal` `handleSubmit` builds (`none` when the
trimmed title is empty, in which case the handler returns without saving).
Its `completedAt` rule: `formData.status === 'done' && !task?.completedAt`
yields the fresh timestamp, and otherwise `task?.completedAt || null` —
the prior value is kept, including on transitions away from `done`. -/
def buildSavedTask (task : Option Task) (form : TaskForm) (now : String)
    (freshId : String) : Option Task :=
  if jsTrim form.title = "" then none
  else
    some
      { id := match task with | some t => t.id | none => freshId
        title := form.title
        description := form.description
        status := form.status
        priority := form.priority
        assignee := form.assignee
        dueDate := form.dueDate
        tags := form.tags
        createdAt := match task with | some t => t.createdAt | none => now
        updatedAt := now
        completedAt :=
          if form.status == TaskStatus.done && (task.bind Task.completedAt).isNone
          then some now
          else task.bind Task.completedAt
        projectId := form.projectId }

end Part001

/-! ### Concrete fixtures for witnesses and counterexamples -/

/-- A plain live task used as a template. -/
def baseTask : Part000.Task :=
  { id := "0", title := "t", description := "", status := TaskStatus.todo
    priority := Priority.medium, assignee := none, dueDate := none, tags := []
    createdAt := "2026-02-05", projectId := none }

/-- 21 distinct ids, one more than the trash cap. -/
def exIds : List String := (List.range 21).map natToString

/-- A document with 21 live tasks (ids `exIds`) and an empty trash. -/
def exBigState : Part000.AppState :=
  { tasks := exIds.map (fun i => { baseTask with id := i }), projects := [], deletedTasks := [] }

/-- One mutation environment (a fixed millisecond timestamp and date). -/
def exEnv : Part000.Env := { nowMs := 1759300000000, today := "2026-02-05" }

/-- A whitespace-only new-task form. -/
def exInputBlank : Part000.NewTaskInput :=
  { title := "   ", description := "", priority := Priority.medium, assignee := ""
    status := TaskStatus.todo, dueDate := "", projectId := "" }

/-- A valid new-task form. -/
def exInputGood : Part000.NewTaskInput := { exInputBlank with title := "Fix bug" }

/-- A valid new-project form. -/
def exProjInput : Part000.NewProjectInput :=
  { name := "Site", description := "", url := "", status := ProjectStatus.planned
    category := "Dashboard", techStack := "", owner := "Jarvis", designScore := 5 }

/-- Two task creations in the same millisecond. -/
def exOpsSame : List Part000.CreateOp :=
  [Part000.CreateOp.task exEnv exInputGood,
   Part000.CreateOp.task exEnv { exInputGood with title := "Other" }]

/-- Three creations at pairwise-distinct milliseconds. -/
def exOpsDistinct : List Part000.CreateOp :=
  [Part000.CreateOp.task exEnv exInputGood,
   Part000.CreateOp.task { exEnv with nowMs := 1759300000001 } { exInputGood with title := "Other" },
   Part000.CreateOp.project { exEnv with nowMs := 1759300000002 } exProjInput]

/-- A live task with id `"1"`. -/
def exLiveTask : Part000.Task := { baseTask with id := "1", title := "live" }

/-- A trash entry whose id collides with `exLiveTask`. -/
def exStaleTrash : Part000.DeletedTask :=
  { toTask := { baseTask with id := "1", title := "older" }, deletedAt := "2026-01-01" }

/-- A document whose trash already holds an entry with the live task's id. -/
def exC10State : Part000.AppState :=
  { tasks := [exLiveTask], projects := [], deletedTasks := [exStaleTrash] }

/-- A document with one live task and an empty trash. -/
def exCleanState : Part000.AppState :=
  { tasks := [exLiveTask], projects := [], deletedTasks := [] }

/-- A task as the remote store returns it. -/
def exRemoteTask : Part000.Task := { baseTask with id := "B", title := "remote" }

/-- A locally cached trash entry. -/
def exLocalDel : Part000.DeletedTask :=
  { toTask := { baseTask with id := "D" }, deletedAt := "2026-01-02" }

/-- An authoritative GET response with non-empty tasks and no trash field,
exactly as `/api/data` produces it. -/
def exRespC1 : DataRoute.GetResponse :=
  { tasks := [exRemoteTask], projects := [], deletedTasks := none
    lastUpdated := some "L", source := "supabase" }

/-- A POST body carrying a non-empty `deletedTasks` field, as the client's
`saveToApi` sends it. -/
def exPostBody : DataRoute.PostBody :=
  { tasks := some [exRemoteTask], projects := some [], deletedTasks := some [exLocalDel] }

/-- A client-side world at the moment the debounce timer fires. -/
def exWorld : Part000.ClientWorld :=
  { tasks := [exRemoteTask], projects := [], deletedTasks := []
    cacheTasks := some [exRemoteTask], cacheProjects := some [], cacheDeleted := some []
    remote := none, syncStatus := SyncStatus.syncing }

/-- First snapshot of a mutation burst. -/
def exSnap1 : Part000.Snapshot := { tasks := [], projects := [], deleted := none }

/-- Second snapshot of a mutation burst. -/
def exSnap2 : Part000.Snapshot :=
  { tasks := [exRemoteTask], projects := [], deleted := some [] }

/-- A coordinator with nothing pending and nothing posted. -/
def exCoord : Part000.Coordinator :=
  { cacheTasks := none, cacheProjects := none, cacheDeleted := none
    pending := none, posted := [], syncStatus := SyncStatus.idle }

/-- A completed (`done`) task of the second variant with `completedAt` set. -/
def exDoneTask : Part001.Task :=
  { id := "t1", title := "x", description := "", status := TaskStatus.done
    priority := Priority.medium, assignee := none, dueDate := none, tags := []
    createdAt := "2026-02-01", updatedAt := "2026-02-02"
    completedAt := some "2026-02-02T10:00:00Z", projectId := none }

/-- An edit-form submission moving the task away from `done`. -/
def exAwayForm : Part001.TaskForm :=
  { title := "x", description := "", status := TaskStatus.todo
    priority := Priority.medium, assignee := none, dueDate := none, tags := []
    projectId := none }

/-! ## Supporting lemmas -/

theorem ofDigitsRev_natDigitsRevGo (fuel : Nat) :
    ∀ n : Nat, n ≤ fuel → ofDigitsRev (natDigitsRevGo fuel n) = n := by
  induction fuel with
  | zero =>
    intro n hn
    interval_cases n
    simp [natDigitsRevGo, ofDigitsRev]
  | succ fuel ih =>
    intro n hn
    match n with
    | 0 => simp [natDigitsRevGo, ofDigitsRev]
    | m + 1 =>
      have hdiv : (m + 1) / 10 ≤ fuel := by
        have h1 : (m + 1) / 10 < m + 1 := Nat.div_lt_self (Nat.succ_pos m) (by norm_num)
        omega
      simp only [natDigitsRevGo, ofDigitsRev, ih _ hdiv]
      exact Nat.mod_add_div (m + 1) 10

theorem ofDigitsRev_natDigitsRev (n : Nat) : ofDigitsRev (natDigitsRev n) = n :=
  ofDigitsRev_natDigitsRevGo n n (Nat.le_refl n)

theorem natDigitsRev_injective : Function.Injective natDigitsRev := by
  intro m n h
  have := ofDigitsRev_natDigitsRev m
  rw [h, ofDigitsRev_natDigitsRev] at this
  omega

theorem natDigitsRevGo_lt_ten (fuel : Nat) :
    ∀ n : Nat, ∀ d ∈ natDigitsRevGo fuel n, d < 10 := by
  induction fuel with
  | zero => intro n d hd; simp [natDigitsRevGo] at hd
  | succ fuel ih =>
    intro n d hd
    match n with
    | 0 => simp [natDigitsRevGo] at hd
    | m + 1 =>
      simp only [natDigitsRevGo, List.mem_cons] at hd
      rcases hd with h | h
      · have := Nat.mod_lt (m + 1) (show 0 < 10 by norm_num)
        omega
      · exact ih _ _ h

theorem natDigitsRev_lt_ten (n : Nat) : ∀ d ∈ natDigitsRev n, d < 10 :=
  natDigitsRevGo_lt_ten n n

theorem digitCh_inj_lt : ∀ a < 10, ∀ b < 10, digitCh a = digitCh b → a = b := by
  decide

theorem map_digitCh_inj :
    ∀ (l₁ l₂ : List Nat), (∀ x ∈ l₁, x < 10) → (∀ x ∈ l₂, x < 10) →
      l₁.map digitCh = l₂.map digitCh → l₁ = l₂ := by
  intro l₁
  induction l₁ with
  | nil => intro l₂ _ _ h; cases l₂ <;> simp_all
  | cons a l ih =>
    intro l₂ h₁ h₂ h
    cases l₂ with
    | nil => simp at h
    | cons b l' =>
      simp only [List.map_cons, List.cons.injEq] at h
      have ha : a < 10 := h₁ a (by simp)
      have hb : b < 10 := h₂ b (by simp)
      have hab : a = b := digitCh_inj_lt a ha b hb h.1
      have := ih l' (fun x hx => h₁ x (by simp [hx])) (fun x hx => h₂ x (by simp [hx])) h.2
      simp [hab, this]

theorem natToString_ne_zero_of_pos {n : Nat} (hn : n ≠ 0) : natToString n ≠ "0" := by
  intro h
  simp only [natToString, if_neg hn] at h
  have hl : (natDigitsRev n).reverse.map digitCh = "0".toList :=
    List.asString_eq.mp h
  have h0 : "0".toList = [digitCh 0] := by decide
  rw [h0] at hl
  have : (natDigitsRev n).reverse = [0] := by
    apply map_digitCh_inj
    · intro x hx
      exact natDigitsRev_lt_ten n x (List.mem_reverse.mp hx)
    · intro x hx; simp at hx; omega
    · exact hl
  have hrev : natDigitsRev n = [0] := by
    have := congrArg List.reverse this
    simpa using this
  have := ofDigitsRev_natDigitsRev n
  rw [hrev] at this
  simp [ofDigitsRev] at this
  exact hn this.symm

theorem natToString_injective : Function.Injective natToString := by
  intro m n h
  by_cases hm : m = 0 <;> by_cases hn : n = 0
  · omega
  · exfalso
    apply natToString_ne_zero_of_pos hn
    rw [← h, hm]
    rfl
  · exfalso
    apply natToString_ne_zero_of_pos hm
    rw [h, hn]
    rfl
  · simp only [natToString, if_neg hm, if_neg hn, List.asString_inj] at h
    apply natDigitsRev_injective
    have := map_digitCh_inj (natDigitsRev m).reverse (natDigitsRev n).reverse
      (fun x hx => natDigitsRev_lt_ten m x (List.mem_reverse.mp hx))
      (fun x hx => natDigitsRev_lt_ten n x (List.mem_reverse.mp hx)) h
    have := congrArg List.reverse this
    simpa using this

/-- `find?` is unchanged by filtering with a predicate implied by the search
predicate. -/
theorem find?_filter_of_imp {α : Type} (p q : α → Bool) (l : List α)
    (h : ∀ x, p x = true → q x = true) : (l.filter q).find? p = l.find? p := by
  induction l with
  | nil => simp
  | cons a l ih =>
    rw [List.filter_cons]
    by_cases hq : q a = true
    · rw [if_pos hq]
      by_cases hp : p a = true
      · rw [List.find?_cons_of_pos _ hp, List.find?_cons_of_pos _ hp]
      · rw [List.find?_cons_of_neg _ (by simp [hp]), List.find?_cons_of_neg _ (by simp [hp]), ih]
    · rw [if_neg hq]
      have hp : ¬ p a = true := fun hpa => hq (h a hpa)
      rw [List.find?_cons_of_neg _ (by simp [hp]), ih]

/-- Truncating the tail of an append before taking `m ≤ n` elements changes
nothing. -/
theorem take_append_take_of_le {α : Type} (t : List α) (n : Nat) :
    ∀ (l : List α) (m : Nat), m ≤ n → (l ++ t.take n).take m = (l ++ t).take m := by
  intro l
  induction l with
  | nil =>
    intro m hm
    simp [List.take_take, Nat.min_eq_left hm]
  | cons a l ih =>
    intro m hm
    cases m with
    | zero => simp
    | succ m =>
      simp only [List.cons_append, List.take_succ_cons]
      rw [ih m (Nat.le_of_succ_le hm)]

/-- `filterMap` over a list where the function never fails keeps the length. -/
theorem length_filterMap_of_isSome {α β : Type} (f : α → Option β) :
    ∀ l : List α, (∀ x ∈ l, (f x).isSome) → (l.filterMap f).length = l.length := by
  intro l
  induction l with
  | nil => simp
  | cons a l ih =>
    intro h
    have ha : (f a).isSome := h a (by simp)
    obtain ⟨b, hb⟩ := Option.isSome_iff_exists.mp ha
    rw [List.filterMap_cons, hb]
    simp only [List.length_cons]
    rw [ih (fun x hx => h x (by simp [hx]))]

namespace Part000

/-- After a deletion burst the trash never exceeds the cap, provided it was
within the cap to start with. -/
theorem softDeleteSeq_trash_le (now : String) :
    ∀ (ids : List String) (st : AppState),
      st.deletedTasks.length ≤ MAX_DELETED →
      (softDeleteSeq st now ids).deletedTasks.length ≤ MAX_DELETED := by
  intro ids
  induction ids with
  | nil => intro st h; exact h
  | cons i rest ih =>
    intro st h
    show (softDeleteSeq (softDeleteTask st now i) now rest).deletedTasks.length ≤ MAX_DELETED
    apply ih
    unfold softDeleteTask
    cases hf : st.tasks.find? (fun t => t.id == i) with
    | none => simpa using h
    | some t =>
      simp only [List.length_take]
      omega

/-- Exact shape of the trash after a deletion burst of distinct, live ids:
the per-id trash records in most-recent-first order, in front of the old
trash, truncated to the cap. -/
theorem softDeleteSeq_trash_eq (now : String) :
    ∀ (ids : List String) (st : AppState),
      st.deletedTasks.length ≤ MAX_DELETED →
      ids.Nodup →
      (∀ i ∈ ids, ∃ t ∈ st.tasks, t.id = i) →
      (softDeleteSeq st now ids).deletedTasks
        = (ids.reverse.filterMap (delRecord st now) ++ st.deletedTasks).take MAX_DELETED := by
  intro ids
  induction ids with
  | nil =>
    intro st h0 _ _
    simp [softDeleteSeq, List.take_of_length_le h0]
  | cons i rest ih =>
    intro st h0 hnd hmem
    obtain ⟨t0, ht0mem, ht0id⟩ := hmem i (by simp)
    have hfind : (st.tasks.find? (fun t => t.id == i)).isSome :=
      List.find?_isSome.mpr ⟨t0, ht0mem, by simp [ht0id]⟩
    obtain ⟨tf, htf⟩ := Option.isSome_iff_exists.mp hfind
    have hnotmem : i ∉ rest := (List.nodup_cons.mp hnd).1
    have hnd' : rest.Nodup := (List.nodup_cons.mp hnd).2
    set d0 : DeletedTask := { toTask := tf, deletedAt := now } with hd0
    have hstep : softDeleteTask st now i
        = { st with
            tasks := st.tasks.filter (fun t => !(t.id == i))
            deletedTasks := (d0 :: st.deletedTasks).take MAX_DELETED } := by
      unfold softDeleteTask
      rw [htf]
    have hseq : softDeleteSeq st now (i :: rest)
        = softDeleteSeq (softDeleteTask st now i) now rest := rfl
    set st' := softDeleteTask st now i with hst'
    have hmem' : ∀ j ∈ rest, ∃ t ∈ st'.tasks, t.id = j := by
      intro j hj
      obtain ⟨t, htmem, htid⟩ := hmem j (by simp [hj])
      refine ⟨t, ?_, htid⟩
      rw [hstep]
      simp only [List.mem_filter]
      refine ⟨htmem, ?_⟩
      have hji : j ≠ i := fun hh => hnotmem (hh ▸ hj)
      simp [htid, hji]
    have h0' : st'.deletedTasks.length ≤ MAX_DELETED := by
      rw [hstep]
      simp only [List.length_take]
      omega
    have hIH := ih st' h0' hnd' hmem'
    have hcongr : rest.reverse.filterMap (delRecord st' now)
        = rest.reverse.filterMap (delRecord st now) := by
      apply List.filterMap_congr
      intro j hj
      have hj' : j ∈ rest := List.mem_reverse.mp hj
      have hji : j ≠ i := fun hh => hnotmem (hh ▸ hj')
      unfold delRecord
      rw [hstep]
      simp only
      rw [find?_filter_of_imp]
      intro x hx
      have : x.id = j := by simpa using hx
      simp [this, hji]
    have htrash' : st'.deletedTasks = (d0 :: st.deletedTasks).take MAX_DELETED := by
      rw [hstep]
    have hrecord : delRecord st now i = some d0 := by
      unfold delRecord
      rw [htf, hd0]
      rfl
    rw [hseq, hIH, hcongr, htrash']
    rw [take_append_take_of_le _ MAX_DELETED _ MAX_DELETED (Nat.le_refl _)]
    have hrev : (i :: rest).reverse = rest.reverse ++ [i] := by simp
    rw [hrev, List.filterMap_append]
    have : [i].filterMap (delRecord st now) = [d0] := by
      simp [List.filterMap_cons, hrecord]
    rw [this]
    simp

/-- A burst of `debouncedSave` calls issues no POST. -/
theorem saveBurst_posted (snaps : List Snapshot) :
    ∀ c : Coordinator, (saveBurst c snaps).posted = c.posted := by
  induction snaps with
  | nil => intro c; rfl
  | cons s rest ih =>
    intro c
    show (saveBurst (debouncedSave c s) rest).posted = c.posted
    rw [ih (debouncedSave c s)]
    rfl

/-- After a non-empty burst the single timer slot holds exactly the last
snapshot (each call cancelled the previous one). -/
theorem saveBurst_pending (snaps : List Snapshot) :
    ∀ (c : Coordinator) (h : snaps ≠ []),
      (saveBurst c snaps).pending = some (snaps.getLast h) := by
  induction snaps with
  | nil => intro c h; exact absurd rfl h
  | cons s rest ih =>
    intro c h
    cases rest with
    | nil => rfl
    | cons s' rest' =>
      have hne : s' :: rest' ≠ [] := by simp
      rw [List.getLast_cons hne]
      exact ih (debouncedSave c s) hne

end Part000

/-! ## Claims -/

namespace Part000

/-- Claim C2: for every sequence of N ≥ 1 mutations all landing inside the
debounce window, no POST is issued during the burst, firing the single
remaining timer issues exactly one POST, and that POST carries the snapshot
of the last mutation; every earlier scheduled write was cancelled (the
coordinator has a single timer slot, and after the fire nothing remains
pending). -/
theorem claim_C2_debounce_coalescing (c : Coordinator) (snaps : List Snapshot)
    (h : snaps ≠ []) :
    (saveBurst c snaps).posted = c.posted
    ∧ (fireTimer (saveBurst c snaps)).posted = c.posted ++ [snaps.getLast h]
    ∧ (fireTimer (saveBurst c snaps)).pending = none := by
  have hp := saveBurst_posted snaps c
  have hpend := saveBurst_pending snaps c h
  refine ⟨hp, ?_, ?_⟩
  · unfold fireTimer
    rw [hpend]
    simp [hp]
  · unfold fireTimer
    rw [hpend]

/-- Claim C2 witness: a concrete two-mutation burst issues exactly one POST,
carrying the second snapshot. -/
theorem claim_C2_witness :
    (fireTimer (saveBurst exCoord [exSnap1, exSnap2])).posted
      = exCoord.posted ++ [[exSnap1, exSnap2].getLast (by simp)] :=
  (claim_C2_debounce_coalescing exCoord [exSnap1, exSnap2] (by simp)).2.1

/-- Claim C3: starting within the cap, after any sequence of `softDeleteTask`
operations the trash has length at most `MAX_DELETED`; and a burst of at
least `MAX_DELETED` deletions of distinct live ids leaves the trash at
exactly `MAX_DELETED` entries, namely the records of the `MAX_DELETED` most
recently deleted tasks in most-recent-first order (the oldest entries having
been evicted). -/
theorem claim_C3_trash_capacity (st : AppState) (now : String) (ids : List String)
    (h0 : st.deletedTasks.length ≤ MAX_DELETED) :
    (softDeleteSeq st now ids).deletedTasks.length ≤ MAX_DELETED
    ∧ (ids.Nodup → (∀ i ∈ ids, ∃ t ∈ st.tasks, t.id = i) → MAX_DELETED ≤ ids.length →
        (softDeleteSeq st now ids).deletedTasks
          = (ids.reverse.filterMap (delRecord st now)).take MAX_DELETED
        ∧ (softDeleteSeq st now ids).deletedTasks.length = MAX_DELETED) := by
  refine ⟨softDeleteSeq_trash_le now ids st h0, ?_⟩
  intro hnd hmem hlen
  have heq := softDeleteSeq_trash_eq now ids st h0 hnd hmem
  have hlenA : (ids.reverse.filterMap (delRecord st now)).length = ids.length := by
    rw [length_filterMap_of_isSome]
    · simp
    · intro i hi
      obtain ⟨t, htmem, htid⟩ := hmem i (List.mem_reverse.mp hi)
      have : (st.tasks.find? (fun t => t.id == i)).isSome :=
        List.find?_isSome.mpr ⟨t, htmem, by simp [htid]⟩
      simpa [delRecord] using this
  constructor
  · rw [heq, List.take_append_of_le_length (by omega)]
  · rw [heq, List.length_take, List.length_append]
    omega

/-- Claim C3 witness: deleting 21 distinct live tasks from an empty trash
leaves exactly `MAX_DELETED` entries. -/
theorem claim_C3_witness :
    (softDeleteSeq exBigState "2026-02-05T00:00:00Z" exIds).deletedTasks.length
      = MAX_DELETED :=
  ((claim_C3_trash_capacity exBigState "2026-02-05T00:00:00Z" exIds (by decide)).2
    (by decide) (by decide) (by decide)).2

/-- Claim C8: `addTask` with an empty or whitespace-only title leaves the
whole document unchanged and raises nothing; with a non-empty title it
prepends exactly one new task, whose id is the stringified creation
timestamp and whose `createdAt` is the current date, leaving all existing
tasks, the projects and the trash unchanged. -/
theorem claim_C8_createTask (st : AppState) (env : Env) (input : NewTaskInput) :
    (jsTrim input.title = "" → addTask st env input = st)
    ∧ (jsTrim input.title ≠ "" →
        (addTask st env input).tasks = mkNewTask env input :: st.tasks
        ∧ (addTask st env input).projects = st.projects
        ∧ (addTask st env input).deletedTasks = st.deletedTasks
        ∧ (mkNewTask env input).id = natToString env.nowMs
        ∧ (mkNewTask env input).createdAt = env.today) := by
  constructor
  · intro h
    simp [addTask, h]
  · intro h
    simp [addTask, h, mkNewTask]

/-- Claim C8 witness: a whitespace-only title is refused on a concrete
document, and a concrete non-empty title prepends the new task. -/
theorem claim_C8_witness :
    addTask exCleanState exEnv exInputBlank = exCleanState
    ∧ (addTask exCleanState exEnv exInputGood).tasks
        = mkNewTask exEnv exInputGood :: exCleanState.tasks :=
  ⟨(claim_C8_createTask exCleanState exEnv exInputBlank).1 (by decide),
   ((claim_C8_createTask exCleanState exEnv exInputGood).2 (by decide)).1⟩

/-- Claim C10 counterexample: when the trash already holds an entry with the
live task's id, soft-deleting and then restoring the task does not leave the
trash as it was — `restoreTask` filters out every entry with that id, so
the pre-existing entry is lost. -/
theorem claim_C10_counterexample :
    (restoreTask (softDeleteTask exC10State "2026-02-05T00:00:00Z" exLiveTask.id)
        exLiveTask.id).deletedTasks
      ≠ exC10State.deletedTasks := by decide

/-- Claim C10 (amended): if `t` is the task `softDeleteTask` finds for its
id, the trash holds fewer than `MAX_DELETED` entries, and no trash entry
already carries `t.id`, then soft-deleting and then restoring `t.id` leaves
the trash exactly as before and puts a record field-for-field equal to `t`
(with no `deletedAt`) at the front of the live collection; soft-deleting an
id with no live task changes nothing, and restoring an id with no trash
entry changes nothing. -/
theorem claim_C10_softdelete_restore (st : AppState) (now : String) (t : Task)
    (hfind : st.tasks.find? (fun x => x.id == t.id) = some t)
    (htrash : ∀ d ∈ st.deletedTasks, d.id ≠ t.id)
    (hlen : st.deletedTasks.length < MAX_DELETED) :
    (restoreTask (softDeleteTask st now t.id) t.id).deletedTasks = st.deletedTasks
    ∧ (restoreTask (softDeleteTask st now t.id) t.id).tasks
        = t :: st.tasks.filter (fun x => !(x.id == t.id))
    ∧ (∀ j, st.tasks.find? (fun x => x.id == j) = none → softDeleteTask st now j = st)
    ∧ (∀ j, st.deletedTasks.find? (fun x => x.id == j) = none → restoreTask st j = st) := by
  set d0 : DeletedTask := { toTask := t, deletedAt := now } with hd0
  have hstep : softDeleteTask st now t.id
      = { st with
          tasks := st.tasks.filter (fun x => !(x.id == t.id))
          deletedTasks := d0 :: st.deletedTasks } := by
    unfold softDeleteTask
    rw [hfind]
    have : (d0 :: st.deletedTasks).take MAX_DELETED = d0 :: st.deletedTasks :=
      List.take_of_length_le (by simp; omega)
    simp only [this]
  have hd0id : (fun x : DeletedTask => x.id == t.id) d0 = true := by
    simp [hd0]
  have hrest : restoreTask (softDeleteTask st now t.id) t.id
      = { softDeleteTask st now t.id with
          tasks := t :: st.tasks.filter (fun x => !(x.id == t.id))
          deletedTasks := st.deletedTasks.filter (fun x => !(x.id == t.id)) } := by
    unfold restoreTask
    rw [hstep]
    simp only [List.find?_cons_of_pos _ hd0id, List.filter_cons]
    have : (!(d0.id == t.id)) = false := by simp [hd0]
    rw [this]
    simp [hd0]
  have hfilter : st.deletedTasks.filter (fun x => !(x.id == t.id)) = st.deletedTasks := by
    apply List.filter_eq_self.mpr
    intro d hd
    simp [htrash d hd]
  refine ⟨?_, ?_, ?_, ?_⟩
  · rw [hrest]
    simpa using hfilter
  · rw [hrest]
  · intro j hj
    unfold softDeleteTask
    rw [hj]
  · intro j hj
    unfold restoreTask
    rw [hj]

/-- Claim C10 witness: the round trip on a concrete one-task document with
an empty trash restores the task to the front and leaves the trash empty. -/
theorem claim_C10_witness :
    (restoreTask (softDeleteTask exCleanState "2026-02-05T00:00:00Z" exLiveTask.id)
        exLiveTask.id).deletedTasks = exCleanState.deletedTasks
    ∧ (restoreTask (softDeleteTask exCleanState "2026-02-05T00:00:00Z" exLiveTask.id)
        exLiveTask.id).tasks
        = exLiveTask :: exCleanState.tasks.filter (fun x => !(x.id == exLiveTask.id)) :=
  have h := claim_C10_softdelete_restore exCleanState "2026-02-05T00:00:00Z" exLiveTask
    (by decide) (by decide) (by decide)
  ⟨h.1, h.2.1⟩

/-- Claim C6 counterexample: when the debounced POST fails, the timer body
still ends with status `saved` — `saveToApi` swallowed the failure — so the
status does not become `error` as claimed. -/
theorem claim_C6_counterexample :
    (debounceTimerBody false exWorld "2026-02-05T00:00:01Z").syncStatus
        ≠ SyncStatus.error
    ∧ (debounceTimerBody false exWorld "2026-02-05T00:00:01Z").syncStatus
        = SyncStatus.saved := by decide

/-- Claim C6 (amended): when the debounced POST fails, the error is swallowed
inside `saveToApi` and the sync status still becomes `saved` (never `error`);
the in-memory snapshot, the local cache and the remote document are all left
unchanged by the failure — no data is cleared or lost. -/
theorem claim_C6_post_failure (w : ClientWorld) (now : String) :
    (debounceTimerBody false w now).syncStatus = SyncStatus.saved
    ∧ (debounceTimerBody false w now).tasks = w.tasks
    ∧ (debounceTimerBody false w now).projects = w.projects
    ∧ (debounceTimerBody false w now).deletedTasks = w.deletedTasks
    ∧ (debounceTimerBody false w now).cacheTasks = w.cacheTasks
    ∧ (debounceTimerBody false w now).cacheProjects = w.cacheProjects
    ∧ (debounceTimerBody false w now).cacheDeleted = w.cacheDeleted
    ∧ (debounceTimerBody false w now).remote = w.remote := by
  refine ⟨rfl, rfl, rfl, rfl, rfl, rfl, rfl, ?_⟩
  simp [debounceTimerBody, saveToApi]

/-- Claim C7 counterexample: with a device store present and an underlying
`setItem` that throws, `saveLocal` propagates the exception to its caller —
the body has no `try`/`catch`. -/
theorem claim_C7_counterexample :
    saveLocal true false { entries := [] } "pm_tasks" "[]" = Except.error () := rfl

/-- Claim C7 (amended): `saveLocal` is a no-op when no persistent device
store is available; when the store is available and the underlying write
succeeds it writes synchronously and returns normally; but a throwing
`setItem` (e.g. quota exceeded) propagates to the caller rather than being
swallowed. -/
theorem claim_C7_saveLocal (store : DeviceStore) (key val : String) :
    saveLocal false true store key val = Except.ok store
    ∧ saveLocal false false store key val = Except.ok store
    ∧ saveLocal true true store key val = Except.ok (store.setItem key val)
    ∧ saveLocal true false store key val = Except.error () :=
  ⟨rfl, rfl, rfl, rfl⟩

end Part000

namespace Part001

/-- Claim C4 counterexample: the edit-form save, applied to a `done` task
with a set `completedAt` and a form moving the status to `todo`, keeps the
old `completedAt` instead of clearing it. -/
theorem claim_C4_counterexample :
    exDoneTask.status = TaskStatus.done
    ∧ exAwayForm.status ≠ TaskStatus.done
    ∧ (buildSavedTask (some exDoneTask) exAwayForm "2026-02-03T00:00:00Z" "f1").bind
        Task.completedAt
      = some "2026-02-02T10:00:00Z" := by decide

/-- Claim C4 (amended): the status-change handler follows the full rule —
a transition into `done` with `completedAt` unset stamps the fresh
timestamp, any transition to a non-`done` status clears `completedAt`, and
a `done`-to-`done` change keeps it. The edit-form save stamps the fresh
timestamp on a transition into `done` with `completedAt` unset, but on any
other submission — including transitions away from `done` — it carries the
prior `completedAt` over unchanged (so leaving `done` does not clear it,
while a transition between two non-`done` statuses with `completedAt` null
leaves it null). -/
theorem claim_C4_completedAt (now freshId : String) (t : Task) (s : TaskStatus)
    (form : TaskForm) (tsk : Task) :
    (s = TaskStatus.done → t.completedAt = none →
        (statusChangeStep now t.id s t).completedAt = some now)
    ∧ (s ≠ TaskStatus.done → (statusChangeStep now t.id s t).completedAt = none)
    ∧ (s = TaskStatus.done → t.completedAt ≠ none →
        (statusChangeStep now t.id s t).completedAt = t.completedAt)
    ∧ (jsTrim form.title ≠ "" → form.status = TaskStatus.done → tsk.completedAt = none →
        (buildSavedTask (some tsk) form now freshId).bind Task.completedAt = some now)
    ∧ (jsTrim form.title ≠ "" → form.status ≠ TaskStatus.done →
        (buildSavedTask (some tsk) form now freshId).bind Task.completedAt
          = tsk.completedAt) := by
  refine ⟨?_, ?_, ?_, ?_, ?_⟩
  · intro hs hc
    simp [statusChangeStep, hs, hc]
  · intro hs
    simp [statusChangeStep, hs]
  · intro hs hc
    simp [statusChangeStep, hs, Option.isNone_iff_eq_none, hc]
  · intro ht hs hc
    simp [buildSavedTask, ht, hs, hc]
  · intro ht hs
    simp [buildSavedTask, ht, hs]

/-- Claim C4 witness: on concrete inputs, the status-change handler clears
`completedAt` when leaving `done`, while the edit-form save keeps the prior
value on the same transition. -/
theorem claim_C4_witness :
    (statusChangeStep "2026-02-03T00:00:00Z" exDoneTask.id TaskStatus.in_progress
        exDoneTask).completedAt = none
    ∧ (buildSavedTask (some exDoneTask) exAwayForm "2026-02-03T00:00:00Z" "f1").bind
        Task.completedAt = exDoneTask.completedAt :=
  have h := claim_C4_completedAt "2026-02-03T00:00:00Z" "f1" exDoneTask
    TaskStatus.in_progress exAwayForm exDoneTask
  ⟨h.2.1 (by decide), h.2.2.2.2 (by decide) (by decide)⟩

end Part001

namespace Part000

/-- Claim C1 counterexample: with authoritative remote data whose trash
collection is empty (as `/api/data` always reports) and a non-empty local
trash cache, the loaded trash is the remote empty one, not the local cache
as the per-field-group rule claims — and the cache is overwritten with the
empty list. -/
theorem claim_C1_counterexample :
    (loadMount [] [] [exLocalDel] (loadFromApi true exRespC1)).deletedTasks = []
    ∧ [exLocalDel] ≠ ([] : List DeletedTask)
    ∧ (loadMount [] [] [exLocalDel] (loadFromApi true exRespC1)).cacheWriteDeleted
        = some [] := by decide

/-- Claim C1 (amended): when the remote GET returns authoritative data
(source `supabase`) with at least one non-empty collection, the loaded tasks
and projects each equal the remote collection if non-empty and the local
cache collection otherwise, while the loaded trash is always the remote
`deletedTasks` value (an absent field coerced to `[]`), never the local
cache; the local cache is overwritten with exactly the chosen values, no
seeding POST is issued, and the status ends `saved`. -/
theorem claim_C1_load_reconciliation (resp : DataRoute.GetResponse)
    (localT : List Task) (localP : List Project) (localD : List DeletedTask)
    (hsrc : resp.source = "supabase")
    (hne : resp.tasks ≠ [] ∨ resp.projects ≠ []) :
    (loadMount localT localP localD (loadFromApi true resp)).tasks
        = (if 0 < resp.tasks.length then resp.tasks else localT)
    ∧ (loadMount localT localP localD (loadFromApi true resp)).projects
        = (if 0 < resp.projects.length then resp.projects else localP)
    ∧ (loadMount localT localP localD (loadFromApi true resp)).deletedTasks
        = jsOrList resp.deletedTasks []
    ∧ (loadMount localT localP localD (loadFromApi true resp)).cacheWriteTasks
        = some (if 0 < resp.tasks.length then resp.tasks else localT)
    ∧ (loadMount localT localP localD (loadFromApi true resp)).cacheWriteProjects
        = some (if 0 < resp.projects.length then resp.projects else localP)
    ∧ (loadMount localT localP localD (loadFromApi true resp)).cacheWriteDeleted
        = some (jsOrList resp.deletedTasks [])
    ∧ (loadMount localT localP localD (loadFromApi true resp)).seedPost = none
    ∧ (loadMount localT localP localD (loadFromApi true resp)).syncStatus
        = SyncStatus.saved := by
  have hguard : (resp.source == "supabase"
      && (decide (0 < resp.tasks.length) || decide (0 < resp.projects.length))) = true := by
    rcases hne with h | h
    · simp [hsrc, List.length_pos.mpr h]
    · simp [hsrc, List.length_pos.mpr h]
  simp only [loadFromApi, Bool.not_true, Bool.false_eq_true, if_false, hguard, if_true]
  simp [loadMount, jsOrList]

/-- Claim C1 witness: on a concrete authoritative response with non-empty
remote tasks and empty remote projects, the loaded tasks are the remote
ones and the loaded projects fall back to the local cache. -/
theorem claim_C1_witness :
    (loadMount [baseTask] [] [exLocalDel] (loadFromApi true exRespC1)).tasks
        = (if 0 < exRespC1.tasks.length then exRespC1.tasks else [baseTask]) := by
  exact (claim_C1_load_reconciliation exRespC1 [baseTask] [] [exLocalDel]
    (by decide) (Or.inl (by decide))).1

end Part000

namespace DataRoute

/-- Claim C5: evaluation at the failing input. A successful POST of a
document whose `deletedTasks` is non-empty followed by a GET returns the
same tasks and projects, but no `deletedTasks` field at all: the route
stores only `tasks`, `projects` and `lastUpdated`, so the trash is dropped
rather than round-tripped. -/
theorem claim_C5_roundtrip_drops_trash :
    (postRoute true true { value := none } exPostBody "TS").2.success = true
    ∧ (getRoute true (postRoute true true { value := none } exPostBody "TS").1).tasks
        = [exRemoteTask]
    ∧ (getRoute true (postRoute true true { value := none } exPostBody "TS").1).projects
        = []
    ∧ exPostBody.deletedTasks = some [exLocalDel]
    ∧ (getRoute true (postRoute true true { value := none } exPostBody "TS").1).deletedTasks
        = none := by decide

end DataRoute

namespace Part000

/-- One create operation either refuses (ids unchanged) or prepends the
stringified timestamp to exactly one of the two id lists. -/
theorem applyCreate_ids (st : AppState) (op : CreateOp) :
    ((applyCreate st op).tasks.map Task.id = st.tasks.map Task.id
      ∧ (applyCreate st op).projects.map Project.id = st.projects.map Project.id)
    ∨ ((applyCreate st op).tasks.map Task.id
          = natToString op.time :: st.tasks.map Task.id
      ∧ (applyCreate st op).projects.map Project.id = st.projects.map Project.id)
    ∨ ((applyCreate st op).tasks.map Task.id = st.tasks.map Task.id
      ∧ (applyCreate st op).projects.map Project.id
          = natToString op.time :: st.projects.map Project.id) := by
  rcases op with ⟨env, input⟩ | ⟨env, input⟩
  · by_cases h : jsTrim input.title = ""
    · left
      simp [applyCreate, addTask, h]
    · right; left
      simp [applyCreate, addTask, h, mkNewTask, CreateOp.time]
  · by_cases h : jsTrim input.name = ""
    · left
      simp [applyCreate, addProject, h]
    · right; right
      simp [applyCreate, addProject, h, mkNewProject, CreateOp.time]

/-- Claim C9 counterexample: two `addTask` calls in the same millisecond
generate the same id (`Date.now().toString()`), so after that create
sequence the task ids are not unique. -/
theorem claim_C9_counterexample :
    ¬ (((applyCreates emptyState exOpsSame).tasks.map Task.id).Nodup) := by decide

/-- Claim C9 (amended): after every sequence of create operations whose
millisecond timestamps are pairwise distinct — applied to a document whose
task ids and project ids are already unique and disjoint from the
timestamps' renderings — every `Task.id` is unique within the task
collection and every `Project.id` is unique within the project collection
(create operations never touch the trash). With colliding timestamps the
generated ids collide, as the counterexample shows. -/
theorem claim_C9_unique_ids :
    ∀ (ops : List CreateOp) (st : AppState),
      (st.tasks.map Task.id).Nodup →
      (st.projects.map Project.id).Nodup →
      (∀ op ∈ ops, natToString op.time ∉ st.tasks.map Task.id
          ∧ natToString op.time ∉ st.projects.map Project.id) →
      (ops.map CreateOp.time).Nodup →
      ((applyCreates st ops).tasks.map Task.id).Nodup
      ∧ ((applyCreates st ops).projects.map Project.id).Nodup := by
  intro ops
  induction ops with
  | nil =>
    intro st h1 h2 _ _
    exact ⟨h1, h2⟩
  | cons op rest ih =>
    intro st h1 h2 h3 h4
    have h4' : (rest.map CreateOp.time).Nodup := (List.nodup_cons.mp h4).2
    have hnotin : op.time ∉ rest.map CreateOp.time := (List.nodup_cons.mp h4).1
    have hstr : ∀ op' ∈ rest, natToString op'.time ≠ natToString op.time := by
      intro op' hop' heq
      have : op'.time = op.time := natToString_injective heq
      exact hnotin (this ▸ List.mem_map_of_mem CreateOp.time hop')
    have hseq : applyCreates st (op :: rest) = applyCreates (applyCreate st op) rest := rfl
    rw [hseq]
    rcases applyCreate_ids st op with ⟨hA, hB⟩ | ⟨hA, hB⟩ | ⟨hA, hB⟩
    · exact ih (applyCreate st op) (hA ▸ h1) (hB ▸ h2)
        (fun op' hop' => ⟨hA ▸ (h3 op' (by simp [hop'])).1, hB ▸ (h3 op' (by simp [hop'])).2⟩)
        h4'
    · apply ih (applyCreate st op)
      · rw [hA]
        exact List.nodup_cons.mpr ⟨(h3 op (by simp)).1, h1⟩
      · rw [hB]
        exact h2
      · intro op' hop'
        refine ⟨?_, hB ▸ (h3 op' (by simp [hop'])).2⟩
        rw [hA]
        simp only [List.mem_cons, not_or]
        exact ⟨hstr op' hop', (h3 op' (by simp [hop'])).1⟩
      · exact h4'
    · apply ih (applyCreate st op)
      · rw [hA]
        exact h1
      · rw [hB]
        exact List.nodup_cons.mpr ⟨(h3 op (by simp)).2, h2⟩
      · intro op' hop'
        refine ⟨hA ▸ (h3 op' (by simp [hop'])).1, ?_⟩
        rw [hB]
        simp only [List.mem_cons, not_or]
        exact ⟨hstr op' hop', (h3 op' (by simp [hop'])).2⟩
      · exact h4'

/-- Claim C9 witness: three concrete creations at pairwise-distinct
milliseconds, starting from the empty document, leave all task and project
ids unique. -/
theorem claim_C9_witness :
    ((applyCreates emptyState exOpsDistinct).tasks.map Task.id).Nodup
    ∧ ((applyCreates emptyState exOpsDistinct).projects.map Project.id).Nodup :=
  claim_C9_unique_ids exOpsDistinct emptyState (by decide) (by decide)
    (by decide) (by decide)

end Part000

end PM
